import Mathlib

/-
Verification of the Block lifecycle and parameter-sharing protocol of the
akid layered neural-network framework (`akid/core/blocks.py`), together
with the exponential-decay learning-rate policy exercised by
`tests/test_kongfus.py`.

Modelling conventions:
* The TensorFlow graph backend is modelled shallowly: `tf.get_variable`
  resolves a variable handle deterministically from the enclosing scope
  name, the requested name and the shape, so that two lookups of the same
  scoped name yield the same handle, exactly as variable reuse does.
  A moving-average read of a handle is a distinct handle value `Var.avg v`.
* Python list objects are heap objects: a `Store` maps addresses to
  `List Var` contents, and the `var_list` attribute of a layer is an
  address into the store.  `copy.copy` copies the attribute record, so a
  shallow copy carries the same `var_list` address (aliasing).
* `log.error` followed by `sys.exit(1)`, and a failing `assert`, are both
  modelled as `Except.error` carrying the diagnostic: construction either
  produces an instance or aborts with a message, never both.
* The lifecycle methods (`_pre_setup`, `_pre_setup_shared`, `_setup`,
  `_post_setup`, `_post_setup_shared`) are overridable; they are modelled
  as functions that may read the whole block and rewrite its mutable
  payload, and that may raise (return `Except.error`).  None of the
  overrides in the repository writes the lifecycle flag `is_setup` or the
  block's `name`; the model reflects this by letting phases rewrite the
  payload only, while `setup` itself is the sole writer of `is_setup`.
* Python's `None` for the initial `is_setup` is falsy; only the values
  `None` and `True` ever occur, so `is_setup` is a `Bool` with the initial
  value `false`.
-/

/-- A variable handle of the graph backend.  `Var.raw scope name shape` is
the unique handle `tf.get_variable name shape` yields inside variable
scope `scope`; `Var.avg v` is the moving-average shadow of `v` as returned
by `moving_averages.average`. -/
inductive Var : Type where
  | raw (scope : String) (name : String) (shape : List Nat) : Var
  | avg (v : Var) : Var
deriving DecidableEq, Repr

/-- The heap of Python list objects used for `var_list` bookkeeping:
`mem` maps an address to the list stored there, `next` is the next fresh
address to hand out. -/
structure Store : Type where
  mem : Nat → List Var
  next : Nat

/-- Read the list object at address `r`. -/
def Store.read (st : Store) (r : Nat) : List Var :=
  st.mem r

/-- `list.append(v)` on the list object at address `r`. -/
def Store.append (st : Store) (r : Nat) (v : Var) : Store :=
  { st with mem := fun i => if i = r then st.mem r ++ [v] else st.mem i }

/-- Allocate a fresh empty list object (`self.var_list = []`). -/
def Store.alloc (st : Store) : Store :=
  { mem := fun i => if i = st.next then [] else st.mem i, next := st.next + 1 }

/-- The five lifecycle phases invoked by `Block.setup`. -/
inductive Phase : Type where
  | pre_setup : Phase
  | pre_setup_shared : Phase
  | core_setup : Phase
  | post_setup : Phase
  | post_setup_shared : Phase
deriving DecidableEq, Repr

/-- The variable scope entered by `Block.setup`:
`tf.variable_scope(self.name, reuse=self.is_setup)`. -/
structure ScopeEntry : Type where
  scope : String
  reuse : Bool
deriving DecidableEq, Repr

/-- A `Block` instance: identity and lifecycle fields from
`Block.__init__`, plus the subclass-specific mutable attributes collected
in `payload`. -/
structure Block (σ : Type) : Type where
  name : String
  do_summary : Bool
  bag : Option String
  is_setup : Bool
  payload : σ

/-- The overridable lifecycle methods of a concrete block.  `_setup`
receives the call's inputs (`*args`); every phase may read the whole
block, rewrites the mutable payload, and may raise. -/
structure SetupImpl (ι σ ε : Type) : Type where
  pre_setup : Block σ → Except ε σ
  pre_setup_shared : Block σ → Except ε σ
  _setup : ι → Block σ → Except ε σ
  post_setup : Block σ → Except ε σ
  post_setup_shared : Block σ → Except ε σ

/-- Run a list of (phase label, phase body) steps in order, threading the
block state, stopping at the first raised exception.  Returns the labels
of the phases that were invoked, the block as mutated so far, and the
exception if one was raised. -/
def runPhases {σ ε : Type} :
    List (Phase × (Block σ → Except ε σ)) → Block σ →
    List Phase × Block σ × Option ε
  | [], b => ([], b, none)
  | (p, f) :: rest, b =>
    match f b with
    | Except.error e => ([p], b, some e)
    | Except.ok s =>
      match runPhases rest { b with payload := s } with
      | (tr, b2, r) => (p :: tr, b2, r)

/-- What one call of `Block.setup` did: the variable scope it entered,
the phases it invoked in order, the block afterwards, and the exception
if one propagated. -/
structure SetupResult (σ ε : Type) : Type where
  scope : ScopeEntry
  trace : List Phase
  blk : Block σ
  err : Option ε

/-- The ordered phase list the body of `Block.setup` executes: the two
shared phases are included exactly when `is_setup` is falsy. -/
def setupSteps {ι σ ε : Type} (impl : SetupImpl ι σ ε) (inputs : ι)
    (is_setup : Bool) : List (Phase × (Block σ → Except ε σ)) :=
  [(Phase.pre_setup, impl.pre_setup)]
    ++ (if is_setup then [] else
          [(Phase.pre_setup_shared, impl.pre_setup_shared)])
    ++ [(Phase.core_setup, impl._setup inputs),
        (Phase.post_setup, impl.post_setup)]
    ++ (if is_setup then [] else
          [(Phase.post_setup_shared, impl.post_setup_shared)])

/-- `Block.setup(*args)`: inside `tf.variable_scope(self.name,
reuse=self.is_setup)` run `_pre_setup`; then, when `is_setup` is falsy,
`_pre_setup_shared`; then `_setup(*args)`; then `_post_setup`; then, when
`is_setup` is falsy, `_post_setup_shared`.  After the scope exits without
an exception, `self.is_setup = True`; an exception leaves `is_setup`
untouched and propagates. -/
def Block.setup {ι σ ε : Type} (impl : SetupImpl ι σ ε) (inputs : ι)
    (b : Block σ) : SetupResult σ ε :=
  match runPhases (setupSteps impl inputs b.is_setup) b with
  | (tr, b2, none) =>
    ⟨⟨b.name, b.is_setup⟩, tr, { b2 with is_setup := true }, none⟩
  | (tr, b2, some e) =>
    ⟨⟨b.name, b.is_setup⟩, tr, b2, some e⟩

/-- The diagnostic printed by `Block.__init__` before `sys.exit(1)` when
the `name` argument is falsy. -/
def blockNameDiagnostic : String :=
  "`name` argument cannot be None! It serves as an identifier, also is"
    ++ " used in visualization and summary etc."

/-- `Block.__init__(do_summary, name, bag)`: a falsy `name` (absent or
empty) logs a diagnostic and exits the process, modelled as
`Except.error`; otherwise the instance is produced with `is_setup` in its
initial never-setup state. -/
def Block.init {σ : Type} (payload : σ) (do_summary : Bool)
    (name : Option String) (bag : Option String) :
    Except String (Block σ) :=
  match name with
  | none => Except.error blockNameDiagnostic
  | some n =>
    if n = "" then Except.error blockNameDiagnostic
    else Except.ok { name := n, do_summary := do_summary, bag := bag,
                     is_setup := false, payload := payload }

/-- The mutable attributes a `ProcessingLayer` adds to `Block`:
`moving_average_decay`, the address of its `var_list` list object, the
`is_val` flag, and the cached `_data` / `_loss` outputs (absent until
`_setup` populates them). -/
structure PLState : Type where
  moving_average_decay : Option ℚ
  var_list : Nat
  is_val : Bool
  _data : Option Nat
  _loss : Option Nat
deriving DecidableEq

/-- A `ProcessingLayer` is a `Block` whose payload carries the
`ProcessingLayer` attributes. -/
abbrev ProcessingLayer : Type := Block PLState

/-- The diagnostic of the failing `assert` in `ProcessingLayer.__init__`
for an out-of-range `moving_average_decay`. -/
def invalidDecayDiagnostic : String :=
  "Invalid moving_average_decay value. Should be None or between [0.5, 1]"

/-- `ProcessingLayer.__init__(moving_average_decay, **kwargs)`: first
`Block.__init__` runs (and may exit on a falsy name); then the assertion
`moving_average_decay is None or moving_average_decay >= 0.5 and
moving_average_decay < 1` is checked, a failure being modelled as
`Except.error`; then `self.var_list = []` allocates a fresh empty list
object and `self.is_val = False`. -/
def ProcessingLayer.init (st : Store) (moving_average_decay : Option ℚ)
    (do_summary : Bool) (name : Option String) (bag : Option String) :
    Except String (ProcessingLayer × Store) :=
  match Block.init () do_summary name bag with
  | Except.error e => Except.error e
  | Except.ok b =>
    match moving_average_decay with
    | none =>
      Except.ok ({ name := b.name, do_summary := b.do_summary, bag := b.bag,
                   is_setup := b.is_setup,
                   payload := ⟨none, st.next, false, none, none⟩ },
                 st.alloc)
    | some d =>
      if 0.5 ≤ d ∧ d < 1 then
        Except.ok ({ name := b.name, do_summary := b.do_summary,
                     bag := b.bag, is_setup := b.is_setup,
                     payload := ⟨some d, st.next, false, none, none⟩ },
                   st.alloc)
      else Except.error invalidDecayDiagnostic

/-- The `moving_average_decay` attribute of a layer. -/
def ProcessingLayer.moving_average_decay (L : ProcessingLayer) : Option ℚ :=
  L.payload.moving_average_decay

/-- The `is_val` attribute of a layer. -/
def ProcessingLayer.is_val (L : ProcessingLayer) : Bool :=
  L.payload.is_val

/-- The `var_list` attribute of a layer: the address of its owned list
object. -/
def ProcessingLayer.var_list (L : ProcessingLayer) : Nat :=
  L.payload.var_list

/-- The `data` property of `ProcessingLayer`: the cached `_data` if the
attribute exists, else `None`. -/
def ProcessingLayer.data (L : ProcessingLayer) : Option Nat :=
  L.payload._data

/-- The `loss` property of `ProcessingLayer`: the cached `_loss` if the
attribute exists, else `None`. -/
def ProcessingLayer.loss (L : ProcessingLayer) : Option Nat :=
  L.payload._loss

/-- `ProcessingLayer.get_copy`: `copy.copy(self)` duplicates the
attribute record; every attribute value, including the `var_list`
address, is shared with the original. -/
def ProcessingLayer.get_copy (L : ProcessingLayer) : ProcessingLayer :=
  L

/-- `ProcessingLayer.set_val`: `self.is_val = True`. -/
def ProcessingLayer.set_val (L : ProcessingLayer) : ProcessingLayer :=
  { L with payload := { L.payload with is_val := true } }

/-- `ProcessingLayer.get_val_copy`: a shallow copy with `is_val` set on
the copy. -/
def ProcessingLayer.get_val_copy (L : ProcessingLayer) : ProcessingLayer :=
  ProcessingLayer.set_val (ProcessingLayer.get_copy L)

/-- `tf.get_variable(name, shape, initializer)` inside variable scope
`scope`: resolves the unique handle of that scoped name (creating it or
reusing the existing storage, which the backend keys by scoped name). -/
def tf_get_variable (scope : String) (name : String) (shape : List Nat) :
    Var :=
  Var.raw scope name shape

/-- `ProcessingLayer._get_variable(name, shape, initializer)`: resolve
the handle in the layer's scope; if the layer has already completed a
setup, return the moving average of the handle when
`moving_average_decay` is configured, else the raw handle; otherwise
append the handle to `var_list` and return it. -/
def ProcessingLayer._get_variable (L : ProcessingLayer) (st : Store)
    (name : String) (shape : List Nat) : Var × Store :=
  let var := tf_get_variable L.name name shape
  if L.is_setup then
    match L.payload.moving_average_decay with
    | some _ => (Var.avg var, st)
    | none => (var, st)
  else
    (var, st.append L.payload.var_list var)

/-- The variable acquisitions a subclass `_setup` performs on one call:
fold `_get_variable` over a list of (name, shape) requests, threading the
store. -/
def ProcessingLayer.getVariables (L : ProcessingLayer) (st : Store)
    (reqs : List (String × List Nat)) : Store :=
  reqs.foldl (fun st' r => (ProcessingLayer._get_variable L st' r.1 r.2).2) st

/-- Modelled from the spec: the learning-rate scheduler module
(`akid/core/kongfus.py`) is not among the provided sources; only its test
`tests/test_kongfus.py` is.  Spec section 4.3 defines the
exponential-decay policy as `rate(step) = base_lr * decay_rate ^
floor(step / (steps_per_epoch * decay_epoch_num))`; natural-number
division is the floor. -/
def exponential_decay (base_lr decay_rate : ℚ)
    (steps_per_epoch decay_epoch_num : ℕ) (step : ℕ) : ℚ :=
  base_lr * decay_rate ^ (step / (steps_per_epoch * decay_epoch_num))

/-- An empty heap with no list objects allocated yet. -/
def st0 : Store :=
  { mem := fun _ => [], next := 0 }

/-- The concrete layer `ProcessingLayer.init st0 none true (some "demo")
none` produces: never set up, no moving average, owning the list object
at address 0. -/
def demoLayer : ProcessingLayer :=
  { name := "demo", do_summary := true, bag := none, is_setup := false,
    payload := ⟨none, 0, false, none, none⟩ }

/-- A layer that has completed a setup and is configured with a moving
average. -/
def doneAvgLayer : ProcessingLayer :=
  { name := "conv", do_summary := true, bag := none, is_setup := true,
    payload := ⟨some (3/4), 0, false, some 5, none⟩ }

/-- A layer that has completed a setup without a moving average. -/
def doneRawLayer : ProcessingLayer :=
  { name := "fc", do_summary := true, bag := none, is_setup := true,
    payload := ⟨none, 1, false, some 5, none⟩ }

/-- A concrete lifecycle implementation: the pre and post phases keep the
payload, `_setup` caches the number of inputs as the `_data` output. -/
def demoImpl : SetupImpl (List Nat) PLState String :=
  { pre_setup := fun b => Except.ok b.payload,
    pre_setup_shared := fun b => Except.ok b.payload,
    _setup := fun inputs b =>
      Except.ok { b.payload with _data := some inputs.length },
    post_setup := fun b => Except.ok b.payload,
    post_setup_shared := fun b => Except.ok b.payload }

/-- A lifecycle implementation whose `_setup` raises. -/
def failImpl : SetupImpl (List Nat) PLState String :=
  { demoImpl with _setup := fun _ _ => Except.error "boom" }

/-- Variable requests a concrete `_setup` might issue. -/
def demoReqs : List (String × List Nat) :=
  [("weights", [5, 3]), ("biases", [3])]

/-- Running a phase list never changes the lifecycle flag: phases rewrite
the payload only. -/
theorem runPhases_is_setup {σ ε : Type}
    (steps : List (Phase × (Block σ → Except ε σ))) :
    ∀ b : Block σ, ((runPhases steps b).2.1).is_setup = b.is_setup := by
  induction steps with
  | nil => intro b; rfl
  | cons pf rest ih =>
    intro b
    obtain ⟨p, f⟩ := pf
    simp only [runPhases]
    cases hf : f b with
    | error e => rfl
    | ok s =>
      show (runPhases rest { b with payload := s }).2.1.is_setup = b.is_setup
      exact ih { b with payload := s }

/-- A run of a phase list that raised no exception invoked exactly the
listed phases, in their listed order. -/
theorem runPhases_ok_trace {σ ε : Type}
    (steps : List (Phase × (Block σ → Except ε σ))) :
    ∀ (b : Block σ) (tr : List Phase) (b2 : Block σ),
      runPhases steps b = (tr, b2, none) → tr = steps.map Prod.fst := by
  induction steps with
  | nil =>
    intro b tr b2 h
    simp only [runPhases, Prod.mk.injEq] at h
    simp [h.1.symm]
  | cons pf rest ih =>
    intro b tr b2 h
    obtain ⟨p, f⟩ := pf
    simp only [runPhases] at h
    cases hf : f b with
    | error e =>
      simp only [hf] at h
      simp at h
    | ok s =>
      simp only [hf] at h
      rcases hr : runPhases rest { b with payload := s } with ⟨tr1, b3, r⟩
      rw [hr] at h
      simp only [Prod.mk.injEq] at h
      obtain ⟨h1, h2, h3⟩ := h
      subst h3
      have := ih { b with payload := s } tr1 b3 hr
      simp [← h1, this]

/-- The phase labels of `setupSteps`, by reuse flag. -/
theorem setupSteps_map_fst {ι σ ε : Type} (impl : SetupImpl ι σ ε)
    (inputs : ι) (flag : Bool) :
    (setupSteps impl inputs flag).map Prod.fst =
      (if flag then
         [Phase.pre_setup, Phase.core_setup, Phase.post_setup]
       else
         [Phase.pre_setup, Phase.pre_setup_shared, Phase.core_setup,
          Phase.post_setup, Phase.post_setup_shared]) := by
  cases flag <;> rfl

/-- `setup` always enters the variable scope named after the block, with
the reuse flag equal to the lifecycle flag at entry. -/
theorem setup_scope_eq {ι σ ε : Type} (impl : SetupImpl ι σ ε)
    (inputs : ι) (b : Block σ) :
    (Block.setup impl inputs b).scope = ⟨b.name, b.is_setup⟩ := by
  unfold Block.setup
  rcases hr : runPhases (setupSteps impl inputs b.is_setup) b with ⟨tr, b2, r⟩
  cases r <;> rfl

/-- A `setup` call that raised no exception invoked the phases of
`setupSteps` in order. -/
theorem setup_ok_trace {ι σ ε : Type} (impl : SetupImpl ι σ ε)
    (inputs : ι) (b : Block σ)
    (h : (Block.setup impl inputs b).err = none) :
    (Block.setup impl inputs b).trace
      = (setupSteps impl inputs b.is_setup).map Prod.fst := by
  unfold Block.setup at h ⊢
  rcases hr : runPhases (setupSteps impl inputs b.is_setup) b with ⟨tr, b2, r⟩
  rw [hr] at h
  cases r with
  | none => exact runPhases_ok_trace _ b tr b2 hr
  | some e => exact Option.noConfusion h

/-- A `setup` call that raised no exception marks the block as set up. -/
theorem setup_ok_is_setup {ι σ ε : Type} (impl : SetupImpl ι σ ε)
    (inputs : ι) (b : Block σ)
    (h : (Block.setup impl inputs b).err = none) :
    (Block.setup impl inputs b).blk.is_setup = true := by
  unfold Block.setup at h ⊢
  rcases hr : runPhases (setupSteps impl inputs b.is_setup) b with ⟨tr, b2, r⟩
  rw [hr] at h
  cases r with
  | none => rfl
  | some e => exact Option.noConfusion h

/-- A `setup` call that raised leaves the lifecycle flag exactly as it
was before the call. -/
theorem setup_err_is_setup {ι σ ε : Type} (impl : SetupImpl ι σ ε)
    (inputs : ι) (b : Block σ) (e : ε)
    (h : (Block.setup impl inputs b).err = some e) :
    (Block.setup impl inputs b).blk.is_setup = b.is_setup := by
  unfold Block.setup at h ⊢
  rcases hr : runPhases (setupSteps impl inputs b.is_setup) b with ⟨tr, b2, r⟩
  rw [hr] at h
  have hflag := runPhases_is_setup (setupSteps impl inputs b.is_setup) b
  rw [hr] at hflag
  cases r with
  | none => exact Option.noConfusion h
  | some e2 => exact hflag

/-- Appending to the list object at `r` is visible to every reader of
address `r`. -/
theorem Store.read_append_self (st : Store) (r : Nat) (v : Var) :
    Store.read (st.append r v) r = Store.read st r ++ [v] := by
  simp [Store.read, Store.append]

/-- `_get_variable` on a layer that never completed a setup returns the
raw handle and appends it to the layer's `var_list` object. -/
theorem get_variable_fresh {L : ProcessingLayer} (h : L.is_setup = false)
    (st : Store) (nm : String) (sh : List Nat) :
    (ProcessingLayer._get_variable L st nm sh).1
        = tf_get_variable L.name nm sh ∧
    Store.read (ProcessingLayer._get_variable L st nm sh).2
        (ProcessingLayer.var_list L)
      = Store.read st (ProcessingLayer.var_list L)
          ++ [tf_get_variable L.name nm sh] := by
  unfold ProcessingLayer._get_variable
  rw [h]
  simp [ProcessingLayer.var_list, Store.read_append_self]

/-- `_get_variable` on a layer that completed a setup appends nothing and
returns the averaged handle exactly when averaging is configured. -/
theorem get_variable_reuse {L : ProcessingLayer} (h : L.is_setup = true)
    (st : Store) (nm : String) (sh : List Nat) :
    (ProcessingLayer._get_variable L st nm sh).2 = st ∧
    (ProcessingLayer._get_variable L st nm sh).1 =
      (match ProcessingLayer.moving_average_decay L with
       | some _ => Var.avg (tf_get_variable L.name nm sh)
       | none => tf_get_variable L.name nm sh) := by
  unfold ProcessingLayer._get_variable
  rw [h]
  cases hm : L.payload.moving_average_decay <;>
    simp [ProcessingLayer.moving_average_decay, hm]

/-- Any sequence of `_get_variable` calls on a layer that completed a
setup leaves the store untouched. -/
theorem getVariables_done {L : ProcessingLayer} (h : L.is_setup = true)
    (st : Store) (reqs : List (String × List Nat)) :
    ProcessingLayer.getVariables L st reqs = st := by
  induction reqs generalizing st with
  | nil => rfl
  | cons r rest ih =>
    unfold ProcessingLayer.getVariables
    rw [List.foldl_cons, (get_variable_reuse h st r.1 r.2).1]
    exact ih st

/-- Inversion of a successful `ProcessingLayer.__init__`: the new layer
has never been set up, carries the given decay, owns the freshly
allocated empty `var_list` object, is not a validation copy, and caches
no outputs yet. -/
theorem ProcessingLayer.init_ok {st : Store} {mad : Option ℚ} {ds : Bool}
    {nm bag : Option String} {L : ProcessingLayer} {st2 : Store}
    (h : ProcessingLayer.init st mad ds nm bag = Except.ok (L, st2)) :
    L.is_setup = false ∧ L.payload = ⟨mad, st.next, false, none, none⟩ ∧
      st2 = st.alloc := by
  unfold ProcessingLayer.init Block.init at h
  cases nm with
  | none => exact Except.noConfusion h
  | some n =>
    dsimp only at h
    by_cases hn : n = ""
    · rw [if_pos hn] at h
      exact Except.noConfusion h
    · rw [if_neg hn] at h
      cases mad with
      | none =>
        simp only [Except.ok.injEq, Prod.mk.injEq] at h
        obtain ⟨h1, h2⟩ := h
        subst h1
        subst h2
        exact ⟨rfl, rfl, rfl⟩
      | some d =>
        dsimp only at h
        by_cases hd : 0.5 ≤ d ∧ d < 1
        · rw [if_pos hd] at h
          simp only [Except.ok.injEq, Prod.mk.injEq] at h
          obtain ⟨h1, h2⟩ := h
          subst h1
          subst h2
          exact ⟨rfl, rfl, rfl⟩
        · rw [if_neg hd] at h
          exact Except.noConfusion h

/-- Propagation of a defined `_data` through a first-setup phase chain:
if the third phase (the subclass `_setup`) always leaves `_data` defined
and the last two phases preserve a defined `_data`, then a run of the
five phases that raised no exception ends with `_data` defined. -/
theorem runPhases_data_chain {ε : Type} (p1 p2 p3 p4 p5 : Phase)
    (f1 f2 f3 f4 f5 : ProcessingLayer → Except ε PLState)
    (h3 : ∀ b s, f3 b = Except.ok s → s._data.isSome = true)
    (h4 : ∀ b s, f4 b = Except.ok s →
        b.payload._data.isSome = true → s._data.isSome = true)
    (h5 : ∀ b s, f5 b = Except.ok s →
        b.payload._data.isSome = true → s._data.isSome = true)
    (b : ProcessingLayer) (tr : List Phase) (b2 : ProcessingLayer)
    (hrun : runPhases [(p1, f1), (p2, f2), (p3, f3), (p4, f4), (p5, f5)] b
        = (tr, b2, none)) :
    b2.payload._data.isSome = true := by
  simp only [runPhases] at hrun
  cases hf1 : f1 b with
  | error e => simp only [hf1] at hrun; simp at hrun
  | ok s1 =>
  simp only [hf1] at hrun
  cases hf2 : f2 { b with payload := s1 } with
  | error e => simp only [hf2] at hrun; simp at hrun
  | ok s2 =>
  simp only [hf2] at hrun
  cases hf3 : f3 { b with payload := s2 } with
  | error e => simp only [hf3] at hrun; simp at hrun
  | ok s3 =>
  simp only [hf3] at hrun
  cases hf4 : f4 { b with payload := s3 } with
  | error e => simp only [hf4] at hrun; simp at hrun
  | ok s4 =>
  simp only [hf4] at hrun
  cases hf5 : f5 { b with payload := s4 } with
  | error e => simp only [hf5] at hrun; simp at hrun
  | ok s5 =>
  simp only [hf5] at hrun
  simp only [Prod.mk.injEq] at hrun
  obtain ⟨-, hb2, -⟩ := hrun
  have hs3 : s3._data.isSome = true := h3 { b with payload := s2 } s3 hf3
  have hs4 : s4._data.isSome = true := h4 { b with payload := s3 } s4 hf4 hs3
  have hs5 : s5._data.isSome = true := h5 { b with payload := s4 } s5 hf5 hs4
  rw [← hb2]
  exact hs5

/-- C1: every `setup(*inputs)` call runs its phases in the fixed order
`_pre_setup`, (`_pre_setup_shared` only on the first setup), `_setup`,
`_post_setup`, (`_post_setup_shared` only on the first setup) inside the
variable scope named after the block, whose reuse flag equals the
lifecycle flag at entry (reuse mode on every call after the first), and
finally marks `is_setup` true. -/
theorem block_setup_phase_order {ι σ ε : Type} (impl : SetupImpl ι σ ε)
    (inputs : ι) (b : Block σ)
    (hok : (Block.setup impl inputs b).err = none) :
    (Block.setup impl inputs b).scope = ⟨b.name, b.is_setup⟩ ∧
    (Block.setup impl inputs b).trace =
      (if b.is_setup then
         [Phase.pre_setup, Phase.core_setup, Phase.post_setup]
       else
         [Phase.pre_setup, Phase.pre_setup_shared, Phase.core_setup,
          Phase.post_setup, Phase.post_setup_shared]) ∧
    (Block.setup impl inputs b).blk.is_setup = true := by
  refine ⟨setup_scope_eq impl inputs b, ?_,
          setup_ok_is_setup impl inputs b hok⟩
  rw [setup_ok_trace impl inputs b hok, setupSteps_map_fst]

/-- Witness for C1 at a concrete layer and implementation: the first call
runs all five phases in order with reuse off, the second call skips the
shared phases and enters the scope in reuse mode. -/
theorem block_setup_phase_order_witness :
    (Block.setup demoImpl [3] demoLayer).scope = ⟨"demo", false⟩ ∧
    (Block.setup demoImpl [3] demoLayer).trace =
      [Phase.pre_setup, Phase.pre_setup_shared, Phase.core_setup,
       Phase.post_setup, Phase.post_setup_shared] ∧
    (Block.setup demoImpl [4]
        (Block.setup demoImpl [3] demoLayer).blk).scope.reuse = true ∧
    (Block.setup demoImpl [4]
        (Block.setup demoImpl [3] demoLayer).blk).trace =
      [Phase.pre_setup, Phase.core_setup, Phase.post_setup] := by
  have h1 := block_setup_phase_order demoImpl [3] demoLayer rfl
  have h2 := block_setup_phase_order demoImpl [4]
      (Block.setup demoImpl [3] demoLayer).blk rfl
  have hflag : (Block.setup demoImpl [3] demoLayer).blk.is_setup = true :=
    h1.2.2
  refine ⟨?_, ?_, ?_, ?_⟩
  · rw [h1.1]
    rfl
  · rw [h1.2.1]
    rfl
  · rw [h2.1]
    exact hflag
  · rw [h2.2.1, hflag]
    rfl

/-- C2: `get_val_copy()` on a live (non-validation) layer yields a copy
whose `var_list` is the very same list object, whose `is_val` flag is
set, while the original stays non-validation. -/
theorem get_val_copy_shares_state (L : ProcessingLayer)
    (h : ProcessingLayer.is_val L = false) :
    ProcessingLayer.var_list (ProcessingLayer.get_val_copy L)
        = ProcessingLayer.var_list L ∧
    ProcessingLayer.is_val (ProcessingLayer.get_val_copy L) = true ∧
    ProcessingLayer.is_val L = false :=
  ⟨rfl, rfl, h⟩

/-- Witness for C2 at a concrete live layer. -/
theorem get_val_copy_shares_state_witness :
    ProcessingLayer.var_list (ProcessingLayer.get_val_copy demoLayer) = 0 ∧
    ProcessingLayer.is_val (ProcessingLayer.get_val_copy demoLayer) = true ∧
    ProcessingLayer.is_val demoLayer = false :=
  get_val_copy_shares_state demoLayer rfl

/-- C9: if a lifecycle phase raises during `setup`, the exception
propagates (the call reports it) and `is_setup` is unchanged, so when the
failed call was the first setup, a later successful attempt still runs
both shared phases. -/
theorem setup_exception_preserves_flag {ι σ ε : Type}
    (impl : SetupImpl ι σ ε) (inputs : ι) (b : Block σ) (e : ε)
    (herr : (Block.setup impl inputs b).err = some e) :
    (Block.setup impl inputs b).blk.is_setup = b.is_setup ∧
    (b.is_setup = false →
      ∀ (impl2 : SetupImpl ι σ ε) (inputs2 : ι),
        (Block.setup impl2 inputs2 (Block.setup impl inputs b).blk).err
            = none →
        Phase.pre_setup_shared ∈
          (Block.setup impl2 inputs2 (Block.setup impl inputs b).blk).trace ∧
        Phase.post_setup_shared ∈
          (Block.setup impl2 inputs2 (Block.setup impl inputs b).blk).trace)
    := by
  have h1 := setup_err_is_setup impl inputs b e herr
  refine ⟨h1, fun hb impl2 inputs2 hok => ?_⟩
  have ht := setup_ok_trace impl2 inputs2 _ hok
  rw [setupSteps_map_fst, h1, hb] at ht
  rw [ht]
  simp

/-- Witness for C9: a `_setup` that raises on the first call leaves the
layer counting as never set up, and a later successful call runs the
shared phases. -/
theorem setup_exception_preserves_flag_witness :
    (Block.setup failImpl [1] demoLayer).blk.is_setup = false ∧
    Phase.pre_setup_shared ∈
      (Block.setup demoImpl [2]
        (Block.setup failImpl [1] demoLayer).blk).trace ∧
    Phase.post_setup_shared ∈
      (Block.setup demoImpl [2]
        (Block.setup failImpl [1] demoLayer).blk).trace := by
  have h := setup_exception_preserves_flag failImpl [1] demoLayer "boom" rfl
  have h2 := h.2 rfl demoImpl [2] rfl
  exact ⟨h.1, h2.1, h2.2⟩

/-- C3: after a layer completed `setup()` once, running it again — i.e.
replaying any sequence of `_get_variable` acquisitions on the
now-set-up layer — changes neither the store nor the length or identity
of the entries of its `var_list` object: `_get_variable` appends only
while `is_setup` is falsy. -/
theorem resetup_preserves_var_list {ι ε : Type}
    (impl : SetupImpl ι PLState ε) (inputs : ι) (L0 : ProcessingLayer)
    (hok : (Block.setup impl inputs L0).err = none)
    (st : Store) (reqs : List (String × List Nat)) :
    ProcessingLayer.getVariables (Block.setup impl inputs L0).blk st reqs
        = st ∧
    Store.read
        (ProcessingLayer.getVariables (Block.setup impl inputs L0).blk st reqs)
        (ProcessingLayer.var_list (Block.setup impl inputs L0).blk)
      = Store.read st
          (ProcessingLayer.var_list (Block.setup impl inputs L0).blk) := by
  have hs := setup_ok_is_setup impl inputs L0 hok
  have h1 := getVariables_done hs st reqs
  exact ⟨h1, by rw [h1]⟩

/-- Witness for C3: replaying the variable requests of a re-setup on a
concretely set-up layer leaves the store untouched. -/
theorem resetup_preserves_var_list_witness :
    ProcessingLayer.getVariables (Block.setup demoImpl [3] demoLayer).blk
        st0 demoReqs = st0 :=
  (resetup_preserves_var_list demoImpl [3] demoLayer rfl st0 demoReqs).1

/-- C4: `_get_variable(name, shape, initializer)` appends the resolved
handle to `var_list` and returns it raw when the layer never completed a
setup; when it has, nothing is appended and the moving average is
returned exactly when `moving_average_decay` is configured, else the raw
handle. -/
theorem get_variable_contract (L : ProcessingLayer) (st : Store)
    (nm : String) (sh : List Nat) :
    (L.is_setup = false →
       (ProcessingLayer._get_variable L st nm sh).1
           = tf_get_variable L.name nm sh ∧
       Store.read (ProcessingLayer._get_variable L st nm sh).2
           (ProcessingLayer.var_list L)
         = Store.read st (ProcessingLayer.var_list L)
             ++ [tf_get_variable L.name nm sh]) ∧
    (L.is_setup = true →
       (ProcessingLayer._get_variable L st nm sh).2 = st ∧
       (ProcessingLayer._get_variable L st nm sh).1 =
         (match ProcessingLayer.moving_average_decay L with
          | some _ => Var.avg (tf_get_variable L.name nm sh)
          | none => tf_get_variable L.name nm sh)) :=
  ⟨fun h => get_variable_fresh h st nm sh,
   fun h => get_variable_reuse h st nm sh⟩

/-- Witness for C4: a fresh layer appends and returns the raw handle; a
set-up layer with averaging configured appends nothing and returns the
average; a set-up layer without averaging returns the raw handle. -/
theorem get_variable_contract_witness :
    (ProcessingLayer._get_variable demoLayer st0 "weights" [5]).1
        = tf_get_variable "demo" "weights" [5] ∧
    Store.read (ProcessingLayer._get_variable demoLayer st0 "weights" [5]).2 0
        = [tf_get_variable "demo" "weights" [5]] ∧
    (ProcessingLayer._get_variable doneAvgLayer st0 "w" [2]).2 = st0 ∧
    (ProcessingLayer._get_variable doneAvgLayer st0 "w" [2]).1
        = Var.avg (tf_get_variable "conv" "w" [2]) ∧
    (ProcessingLayer._get_variable doneRawLayer st0 "w" [2]).1
        = tf_get_variable "fc" "w" [2] := by
  have h1 := (get_variable_contract demoLayer st0 "weights" [5]).1 rfl
  have h2 := (get_variable_contract doneAvgLayer st0 "w" [2]).2 rfl
  have h3 := (get_variable_contract doneRawLayer st0 "w" [2]).2 rfl
  refine ⟨h1.1, ?_, h2.1, ?_, ?_⟩
  · have := h1.2
    simpa using this
  · simpa using h2.2
  · simpa using h3.2

/-- C10: a validation copy taken from a never-set-up layer inherits the
falsy `is_setup` instead of being forced into reuse mode: its own
`setup()` then enters the scope with reuse off and runs both shared
phases, and its `_get_variable` appends the raw handle to the list object
it shares with the original — the reuse semantics of a validation copy
hold only when the original completed `setup()` before the copy. -/
theorem val_copy_before_setup_shares_appends {ι ε : Type}
    (L : ProcessingLayer) (h : L.is_setup = false) :
    (ProcessingLayer.get_val_copy L).is_setup = false ∧
    ProcessingLayer.var_list (ProcessingLayer.get_val_copy L)
        = ProcessingLayer.var_list L ∧
    (∀ (impl : SetupImpl ι PLState ε) (inputs : ι),
        (Block.setup impl inputs (ProcessingLayer.get_val_copy L)).err
            = none →
        (Block.setup impl inputs (ProcessingLayer.get_val_copy L)).scope.reuse
            = false ∧
        Phase.pre_setup_shared ∈
          (Block.setup impl inputs (ProcessingLayer.get_val_copy L)).trace ∧
        Phase.post_setup_shared ∈
          (Block.setup impl inputs (ProcessingLayer.get_val_copy L)).trace) ∧
    (∀ (st : Store) (nm : String) (sh : List Nat),
        (ProcessingLayer._get_variable (ProcessingLayer.get_val_copy L)
            st nm sh).1 = tf_get_variable L.name nm sh ∧
        Store.read (ProcessingLayer._get_variable
              (ProcessingLayer.get_val_copy L) st nm sh).2
            (ProcessingLayer.var_list L)
          = Store.read st (ProcessingLayer.var_list L)
              ++ [tf_get_variable L.name nm sh]) := by
  have hc : (ProcessingLayer.get_val_copy L).is_setup = false := h
  refine ⟨hc, rfl, fun impl inputs hok => ?_, fun st nm sh => ?_⟩
  · have ht := setup_ok_trace impl inputs _ hok
    rw [setupSteps_map_fst, hc] at ht
    have hs := setup_scope_eq impl inputs (ProcessingLayer.get_val_copy L)
    constructor
    · rw [hs]
      exact hc
    · rw [ht]
      simp
  · exact get_variable_fresh hc st nm sh

/-- Witness for C10 at a concrete never-set-up layer: the copy still
counts as never set up, its setup runs the shared phases with reuse off,
and its variable acquisition appends to the shared list object. -/
theorem val_copy_before_setup_shares_appends_witness :
    (ProcessingLayer.get_val_copy demoLayer).is_setup = false ∧
    Phase.pre_setup_shared ∈
      (Block.setup demoImpl [7]
        (ProcessingLayer.get_val_copy demoLayer)).trace ∧
    (ProcessingLayer._get_variable (ProcessingLayer.get_val_copy demoLayer)
        st0 "weights" [5]).1 = tf_get_variable "demo" "weights" [5] ∧
    Store.read (ProcessingLayer._get_variable
          (ProcessingLayer.get_val_copy demoLayer) st0 "weights" [5]).2
        (ProcessingLayer.var_list demoLayer)
      = [tf_get_variable "demo" "weights" [5]] := by
  have h := val_copy_before_setup_shares_appends
      (ι := List Nat) (ε := String) demoLayer rfl
  have h3 := h.2.2.1 demoImpl [7] rfl
  have h4 := h.2.2.2 st0 "weights" [5]
  refine ⟨h.1, h3.2.1, h4.1, ?_⟩
  have := h4.2
  simpa using this

/-- C5: a freshly constructed layer yields the neutral absent value from
its `data` property (no error), and after a `setup()` that returns
successfully — with a `_setup` that populates the `data` output as the
Block contract requires, and post phases that keep it populated, as every
override in the repository does — `data` is a defined value. -/
theorem data_absent_before_defined_after {ι ε : Type}
    (st : Store) (mad : Option ℚ) (ds : Bool) (nm bag : Option String)
    (L0 : ProcessingLayer) (st2 : Store)
    (hinit : ProcessingLayer.init st mad ds nm bag = Except.ok (L0, st2))
    (impl : SetupImpl ι PLState ε) (inputs : ι)
    (hcore : ∀ (i : ι) (b : ProcessingLayer) (s : PLState),
        impl._setup i b = Except.ok s → s._data.isSome = true)
    (hpost : ∀ (b : ProcessingLayer) (s : PLState),
        impl.post_setup b = Except.ok s →
        b.payload._data.isSome = true → s._data.isSome = true)
    (hpostsh : ∀ (b : ProcessingLayer) (s : PLState),
        impl.post_setup_shared b = Except.ok s →
        b.payload._data.isSome = true → s._data.isSome = true)
    (hok : (Block.setup impl inputs L0).err = none) :
    ProcessingLayer.data L0 = none ∧
    (ProcessingLayer.data (Block.setup impl inputs L0).blk).isSome = true := by
  obtain ⟨hsetup, hpayload, -⟩ := ProcessingLayer.init_ok hinit
  constructor
  · show L0.payload._data = none
    rw [hpayload]
  · unfold Block.setup at hok ⊢
    rw [hsetup] at hok ⊢
    have hsteps : setupSteps impl inputs false =
        [(Phase.pre_setup, impl.pre_setup),
         (Phase.pre_setup_shared, impl.pre_setup_shared),
         (Phase.core_setup, impl._setup inputs),
         (Phase.post_setup, impl.post_setup),
         (Phase.post_setup_shared, impl.post_setup_shared)] := rfl
    rw [hsteps] at hok ⊢
    rcases hr : runPhases
        [(Phase.pre_setup, impl.pre_setup),
         (Phase.pre_setup_shared, impl.pre_setup_shared),
         (Phase.core_setup, impl._setup inputs),
         (Phase.post_setup, impl.post_setup),
         (Phase.post_setup_shared, impl.post_setup_shared)] L0
      with ⟨tr, b2, r⟩
    rw [hr] at hok
    cases r with
    | some e => exact Option.noConfusion hok
    | none =>
      exact runPhases_data_chain _ _ _ _ _ _ _ _ _ _
        (fun b s hh => hcore inputs b s hh) hpost hpostsh L0 tr b2 hr

/-- Witness for C5: the demo layer has absent `data` before setup and
defined `data` after a successful setup. -/
theorem data_absent_before_defined_after_witness :
    ProcessingLayer.data demoLayer = none ∧
    (ProcessingLayer.data (Block.setup demoImpl [8, 9] demoLayer).blk).isSome
        = true := by
  have h := data_absent_before_defined_after st0 none true (some "demo")
      none demoLayer st0.alloc rfl demoImpl [8, 9]
      (fun i b s hh => by
        simp only [demoImpl, Except.ok.injEq] at hh
        rw [← hh]
        rfl)
      (fun b s hh hd => by
        simp only [demoImpl, Except.ok.injEq] at hh
        rw [← hh]
        exact hd)
      (fun b s hh hd => by
        simp only [demoImpl, Except.ok.injEq] at hh
        rw [← hh]
        exact hd)
      rfl
  exact h

/-- C6: constructing a `ProcessingLayer` succeeds, storing the decay,
exactly when `moving_average_decay` is `None` or lies in [0.5, 1); any
other decay fails the constructor assertion with the configuration
diagnostic. -/
theorem decay_range_validation (st : Store) (mad : Option ℚ) (ds : Bool)
    (n : String) (hn : n ≠ "") (bag : Option String) :
    ((mad = none ∨ ∃ d, mad = some d ∧ 0.5 ≤ d ∧ d < 1) →
       ∃ L st2, ProcessingLayer.init st mad ds (some n) bag
           = Except.ok (L, st2) ∧
         ProcessingLayer.moving_average_decay L = mad) ∧
    (∀ d, mad = some d → ¬(0.5 ≤ d ∧ d < 1) →
       ProcessingLayer.init st mad ds (some n) bag
         = Except.error invalidDecayDiagnostic) := by
  have hb : Block.init (σ := Unit) () ds (some n) bag
      = Except.ok { name := n, do_summary := ds, bag := bag,
                    is_setup := false, payload := () } := by
    unfold Block.init
    dsimp only
    rw [if_neg hn]
  constructor
  · rintro (rfl | ⟨d, rfl, hd⟩)
    · refine ⟨{ name := n, do_summary := ds, bag := bag, is_setup := false,
                payload := ⟨none, st.next, false, none, none⟩ }, st.alloc,
              ?_, rfl⟩
      unfold ProcessingLayer.init
      rw [hb]
    · refine ⟨{ name := n, do_summary := ds, bag := bag, is_setup := false,
                payload := ⟨some d, st.next, false, none, none⟩ }, st.alloc,
              ?_, rfl⟩
      unfold ProcessingLayer.init
      rw [hb]
      dsimp only
      rw [if_pos hd]
  · rintro d rfl hd
    unfold ProcessingLayer.init
    rw [hb]
    dsimp only
    rw [if_neg hd]

/-- Witness for C6: decay 3/4 is accepted and stored; decay 2 is
rejected with the configuration diagnostic. -/
theorem decay_range_validation_witness :
    (∃ L st2, ProcessingLayer.init st0 (some (3/4)) true (some "conv") none
        = Except.ok (L, st2) ∧
      ProcessingLayer.moving_average_decay L = some (3/4)) ∧
    ProcessingLayer.init st0 (some 2) true (some "conv") none
        = Except.error invalidDecayDiagnostic := by
  constructor
  · exact (decay_range_validation st0 (some (3/4)) true "conv"
        (by decide) none).1
      (Or.inr ⟨3/4, rfl, by norm_num, by norm_num⟩)
  · exact (decay_range_validation st0 (some 2) true "conv"
        (by decide) none).2 2 rfl (by norm_num)

/-- C7: constructing a `Block` with an absent or empty name is fatal —
the constructor emits the identifying diagnostic and terminates
(modelled as `Except.error`), so no instance is produced. -/
theorem block_init_requires_name {σ : Type} (payload : σ) (ds : Bool)
    (bag : Option String) (nm : Option String)
    (h : nm = none ∨ nm = some "") :
    Block.init payload ds nm bag = Except.error blockNameDiagnostic := by
  rcases h with rfl | rfl
  · rfl
  · simp [Block.init]

/-- Witness for C7 at both falsy names. -/
theorem block_init_requires_name_witness :
    Block.init (σ := Unit) () true (none : Option String) none
        = Except.error blockNameDiagnostic ∧
    Block.init (σ := Unit) () true (some "") none
        = Except.error blockNameDiagnostic :=
  ⟨block_init_requires_name () true none none (Or.inl rfl),
   block_init_requires_name () true none (some "") (Or.inr rfl)⟩

/-- C8 counterexample: with a negative base rate the exponential-decay
rate strictly increases from step 0 to step 1 even though the decay rate
1/2 lies in (0, 1], so the monotonicity clause of the claim is false
without a sign assumption on the base rate. -/
theorem exp_decay_monotone_counterexample :
    (0 : ℚ) < 1/2 ∧ (1/2 : ℚ) ≤ 1 ∧
    exponential_decay (-1) (1/2) 1 1 0
      < exponential_decay (-1) (1/2) 1 1 1 := by
  refine ⟨by norm_num, by norm_num, ?_⟩
  norm_num [exponential_decay]

/-- C8 (amended): the exponential-decay policy computes
`base_lr * decay_rate ^ floor(step / (steps_per_epoch * decay_epoch_num))`;
with the tested configuration the rate at step 468 is within 1e-4 of
0.0095; and for a nonnegative base rate and a decay rate in (0, 1] the
rate is non-increasing in the step. -/
theorem exp_decay_formula_and_monotone (base_lr decay_rate : ℚ)
    (p e : ℕ) (hb : 0 ≤ base_lr) (h0 : 0 < decay_rate)
    (h1 : decay_rate ≤ 1) :
    (∀ s : ℕ, exponential_decay base_lr decay_rate p e s
        = base_lr * decay_rate ^ (s / (p * e))) ∧
    |exponential_decay 0.01 0.95 468 1 468 - 0.0095| ≤ 1 / 10000 ∧
    (∀ s t : ℕ, s ≤ t →
        exponential_decay base_lr decay_rate p e t
          ≤ exponential_decay base_lr decay_rate p e s) := by
  refine ⟨fun s => rfl, ?_, fun s t hst => ?_⟩
  · norm_num [exponential_decay]
  · unfold exponential_decay
    apply mul_le_mul_of_nonneg_left _ hb
    exact pow_le_pow_of_le_one (le_of_lt h0) h1 (Nat.div_le_div_right hst)

/-- Witness for the amended C8 at the tested configuration. -/
theorem exp_decay_formula_and_monotone_witness :
    exponential_decay 0.01 0.95 468 1 900
        ≤ exponential_decay 0.01 0.95 468 1 468 ∧
    |exponential_decay 0.01 0.95 468 1 468 - 0.0095| ≤ 1 / 10000 := by
  have h := exp_decay_formula_and_monotone 0.01 0.95 468 1
      (by norm_num) (by norm_num) (by norm_num)
  exact ⟨h.2.2 468 900 (by norm_num), h.2.1⟩
